import Mathlib

/-!
Verification of the `quickstartutil` library (file `quickstartutil.py`)
against its natural-language specification.

The development is a shallow embedding of the Python module:

* External processes are modelled by an environment function mapping the
  full command-line string to a `ProcResult` (return code plus captured
  output).  `subprocess.check_call` / `check_output` raise
  `CalledProcessError` exactly when the return code is non-zero, which the
  embedding reflects by branching on `returncode = 0`.
* Python exceptions are modelled by the inductive type `Exc` (one
  constructor per exception class that the module can raise or propagate);
  fallible operations return `Except Exc α`.
* Each wrapper operation additionally returns the list of external
  command lines it actually executed, in order, so that claims about
  "no external command is executed" / "a follow-up query is performed"
  are expressible.
* Strings of the source are kept verbatim; `%s` and `%d` formatting of
  Python values is modelled by `toString` on `Int` (identical output) and
  by explicit concatenation.
-/

set_option autoImplicit false

/-- Outcome of one external process invocation: its exit status and the
text captured from stdout/stderr (`stderr=subprocess.STDOUT` merges the
two streams in the source). -/
structure ProcResult where
  returncode : Nat
  output : String
deriving DecidableEq, Repr

/-- Python exceptions raised or propagated by the module, one constructor
per exception class.  `attributeError` / `valueError` / `keyError` model
the built-in Python exceptions escaping the XML-parsing code
(`None.attrib`, `int(...)`, `d[...]`); `ioError` models the built-in
error raised by `open` on a missing file; `xmlParseError` models
`xml.etree.ElementTree.ParseError` from `fromstring`. -/
inductive Exc where
  | osxSystemExec (cmd : String) (code : Nat) (output : Option String)
  | osxPathNotExist (path : String)
  | osxPathAlreadyExist (path : String)
  | osxPathTypeUnsupported (path : String)
  | svnNoMessage (operation : String)
  | svnAlreadyLocked (path : String) (owner comment date : Option String)
  | svnBranchDestinationAlreadyExist (dst : String)
  | gitParseMetaData (msg : String)
  | ioError (path : String)
  | keyError (key : String)
  | attributeError
  | valueError
  | xmlParseError
deriving DecidableEq, Repr

/-- Test used to express that a result is not the "message required"
error (`SvnNoMessageError` in the source). -/
def Exc.isNoMessage : Exc → Bool
  | .svnNoMessage _ => true
  | _ => false

/-- Test used to express that a result is not `GitParseMetaDataError`. -/
def Exc.isGitParseMetaData : Exc → Bool
  | .gitParseMetaData _ => true
  | _ => false

/-- Whether a computation failed with the "message required" error. -/
def failsWithNoMessage {α : Type} : Except Exc α → Bool
  | .error e => e.isNoMessage
  | .ok _ => false

/-- Whether a computation failed with `GitParseMetaDataError`. -/
def failsWithGitParseMetaData {α : Type} : Except Exc α → Bool
  | .error e => e.isGitParseMetaData
  | .ok _ => false

/-- Exit code carried by a process-execution failure, if the computation
failed with one (`OsxSystemExecError.code` in the source). -/
def execErrorCode {α : Type} : Except Exc α → Option Nat
  | .error (.osxSystemExec _ code _) => some code
  | _ => none

namespace Osx

/-- Source `_BaseOsx._fix_cmd_retcode` (line 210-212):
`retcode if _IS_OS_WIN32 else (retcode >> 8)`. -/
def _fix_cmd_retcode (isWin32 : Bool) (retcode : Nat) : Nat :=
  if isWin32 then retcode else retcode >>> 8

/-- Source `_BaseOsx._system_exec_1` (lines 214-227): `subprocess.check_call`;
on `CalledProcessError` (non-zero exit) raises `OsxSystemExecError` with
the fixed return code and `output = None`. -/
def _system_exec_1 (isWin32 : Bool) (cmd : String) (res : ProcResult) : Except Exc Unit :=
  if res.returncode = 0 then .ok ()
  else .error (.osxSystemExec cmd (_fix_cmd_retcode isWin32 res.returncode) none)

/-- Source `_BaseOsx._system_exec_2` (lines 229-238): `subprocess.check_output`;
on failure raises `OsxSystemExecError` carrying the captured output. -/
def _system_exec_2 (isWin32 : Bool) (cmd : String) (res : ProcResult) : Except Exc Unit :=
  if res.returncode = 0 then .ok ()
  else .error (.osxSystemExec cmd (_fix_cmd_retcode isWin32 res.returncode) (some res.output))

/-- Source `_BaseOsx.system_exec` (lines 240-252): dispatches on
`redirect_output_to_log`. -/
def system_exec (isWin32 : Bool) (redirect_output_to_log : Bool) (cmd : String)
    (res : ProcResult) : Except Exc Unit :=
  if redirect_output_to_log then _system_exec_2 isWin32 cmd res
  else _system_exec_1 isWin32 cmd res

/-- Source `_BaseOsx.system_output` (lines 254-264): `subprocess.check_output`
returning the captured output; on failure the exit-code transform is
written inline (`e.returncode if _IS_OS_WIN32 else (e.returncode >> 8)`). -/
def system_output (isWin32 : Bool) (cmd : String) (res : ProcResult) : Except Exc String :=
  if res.returncode = 0 then .ok res.output
  else .error (.osxSystemExec cmd
    (if isWin32 then res.returncode else res.returncode >>> 8) (some res.output))

/-- What a filesystem path is at the moment an operation inspects it.
`os.path.exists` holds iff the kind is not `absent`; `os.path.isdir` /
`os.path.isfile` hold iff the kind is `dir` / `file`; `other` covers an
existing path that is neither (the final `else` of `remove_path`). -/
inductive PathKind where
  | absent
  | dir
  | file
  | other
deriving DecidableEq, Repr

/-- Environment seen by the path helpers: what each path currently is,
what each executed command returns, and the behaviour of the external
`os.path.normpath` function. -/
structure FsEnv where
  kind : String → PathKind
  run : String → ProcResult
  normpath : String → String

/-- Source `_Osx_Win32.exec_command` (line 303-304): runs the command via
`system_exec` (the `_is_shell_command` dispatch only toggles the
`shell=` flag, which has no observable effect in this model).  Returns
the executed command line together with the outcome. -/
def exec_command (isWin32 redirect : Bool) (env : FsEnv) (cmd : String) :
    List String × Except Exc Unit :=
  ([cmd], system_exec isWin32 redirect cmd (env.run cmd))

/-- Source `_Osx_Win32.remove_path` (lines 309-325). -/
def remove_path (isWin32 redirect : Bool) (env : FsEnv) (path : String)
    (force : Bool := true) : List String × Except Exc Unit :=
  if env.kind path = .absent then
    if force then ([], .ok ())
    else ([], .error (.osxPathNotExist path))
  else if env.kind path = .dir then
    exec_command isWin32 redirect env ("rd /s/q " ++ env.normpath path)
  else if env.kind path = .file then
    exec_command isWin32 redirect env ("del /f/q " ++ env.normpath path)
  else
    ([], .error (.osxPathTypeUnsupported path))

/-- Result of `_Osx_Win32.copy_dir`: the commands executed, the outcome
returned or raised to the caller, and whether the temporary exclude-list
file (created by `tempfile.mktemp` + `open`) still exists on disk when
control returns to the caller. -/
structure CopyDirResult where
  trace : List String
  outcome : Except Exc Unit
  tempFileExists : Bool

/-- Source `_Osx_Win32.copy_dir` (lines 327-342).  `tempName` is the path
returned by `tempfile.mktemp()`.  With an exclude list the temporary file
is written, the `xcopy` command is executed, and `os.remove` runs only
afterwards: if `exec_command` raises, the exception propagates before the
`os.remove` line, leaving the temporary file in place. -/
def copy_dir (isWin32 redirect : Bool) (env : FsEnv) (tempName : String)
    (src_dir dst_dir : String) (excludes : Option (List String)) : CopyDirResult :=
  match excludes with
  | none =>
    let cmd := "xcopy " ++ env.normpath src_dir ++ "\\* " ++ env.normpath dst_dir
      ++ " /r/i/c/k/h/e/q/y"
    let (t, r) := exec_command isWin32 redirect env cmd
    ⟨t, r, false⟩
  | some _ =>
    let cmd := "xcopy " ++ env.normpath src_dir ++ "\\* " ++ env.normpath dst_dir
      ++ " /r/i/c/k/h/e/q/y/exclude:" ++ tempName
    let (t, r) := exec_command isWin32 redirect env cmd
    match r with
    | .ok _ => ⟨t, .ok (), false⟩
    | .error e => ⟨t, .error e, true⟩

end Osx

/-! ## XML model

`xml.etree.ElementTree` elements, as far as the module uses them:
`find` (first direct child with a tag), `attrib[...]` lookup, and
`.text` (which is `None` for an element with no text). -/

/-- An XML element: tag, attributes, text content (`None` possible) and
child elements. -/
inductive XmlNode where
  | mk (tag : String) (attrs : List (String × String)) (text : Option String)
       (children : List XmlNode)

/-- Tag of an element. -/
def XmlNode.tag : XmlNode → String
  | .mk t _ _ _ => t

/-- Text of an element (`element.text`). -/
def XmlNode.text : XmlNode → Option String
  | .mk _ _ tx _ => tx

/-- Children of an element. -/
def XmlNode.children : XmlNode → List XmlNode
  | .mk _ _ _ cs => cs

/-- Attributes of an element (`element.attrib`). -/
def XmlNode.attrs : XmlNode → List (String × String)
  | .mk _ as _ _ => as

/-- Attribute lookup, `element.attrib[key]`; `none` models the `KeyError`
case. -/
def XmlNode.attr (n : XmlNode) (key : String) : Option String :=
  (n.attrs.find? (fun p => p.1 == key)).map (fun p => p.2)

/-- Child lookup, `element.find(tag)`: first direct child with the tag,
`None` when there is none. -/
def XmlNode.findChild (n : XmlNode) (t : String) : Option XmlNode :=
  n.children.find? (fun c => c.tag == t)

/-- Digit accumulator for `pyInt`. -/
def parseDigitsAux : List Char → Nat → Option Nat
  | [], acc => some acc
  | c :: cs, acc =>
    if c.isDigit then parseDigitsAux cs (acc * 10 + (c.toNat - '0'.toNat)) else none

/-- A non-empty all-digit run parsed as a natural number. -/
def parseDigits : List Char → Option Nat
  | [] => none
  | cs => parseDigitsAux cs 0

/-- Python `int(s)` on a string: surrounding whitespace is ignored, an
optional sign is honoured, then a non-empty decimal digit run is
required; `none` models the `ValueError` case.  (The module only ever
feeds it the revision numbers printed by `svn`.) -/
def pyInt (s : String) : Option Int :=
  let ws := fun (c : Char) => c == ' ' || c == '\t' || c == '\n' || c == '\r'
  let cs := ((s.data.dropWhile ws).reverse.dropWhile ws).reverse
  match cs with
  | '-' :: rest => (parseDigits rest).map (fun n => -(n : Int))
  | '+' :: rest => (parseDigits rest).map (fun n => (n : Int))
  | rest => (parseDigits rest).map (fun n => (n : Int))

namespace Svn

/-- Errors arising inside the XML-shaping code of `info_dict` /
`get_revision_number`: `attrError` for an `AttributeError`
(`None.attrib`, `None.text` after a failed `find`), `keyErr` for a
`KeyError` on `attrib[...]`, `valueErr` for `int(...)` failing. -/
inductive XmlErr where
  | attrError
  | keyErr (key : String)
  | valueErr
deriving DecidableEq, Repr

/-- Embedding of the XML-shaping errors into the exception model. -/
def XmlErr.toExc : XmlErr → Exc
  | .attrError => .attributeError
  | .keyErr k => .keyError k
  | .valueErr => .valueError

/-- Option-to-Except helper: the designated exception is raised when the
looked-up thing is missing. -/
def need {α : Type} (o : Option α) (e : XmlErr) : Except XmlErr α :=
  match o with
  | some a => .ok a
  | none => .error e

/-- Repository subtree of the info record (source lines 493-497). -/
structure SvnRepository where
  root : Option String
  uuid : Option String

/-- Working-copy subtree of the info record (source lines 499-505).
Note the source populates the `uuid` key from the `schedule` element. -/
structure SvnWcInfo where
  wcroot_abspath : Option String
  uuid : Option String
  depth : Option String

/-- Commit subtree of the info record (source lines 507-515); the
`author` key is only present when the XML has an `author` element. -/
structure SvnCommit where
  revision : Int
  author : Option (Option String)
  date : Option String

/-- Lock subtree of the info record (source lines 517-525); the comment
is the empty string when the `comment` element is absent, and the
element text (possibly `None`) otherwise. -/
structure SvnLock where
  token : Option String
  owner : Option String
  comment : Option String
  created : Option String

/-- The nested mapping built by `Svn.info_dict`; subtrees that the
source only adds conditionally (`wc-info`, `lock`) are `Option`s, so an
absent key is `none` rather than a present key with null fields. -/
structure SvnInfo where
  kind : String
  path : String
  revision : Int
  url : Option String
  relative_url : Option String
  repository : SvnRepository
  wc_info : Option SvnWcInfo
  commit : SvnCommit
  lock : Option SvnLock

/-- Source lines 499-505: the `wc-info` subtree is built only when the
node is present. -/
def parse_wc_info (entry : XmlNode) : Except XmlErr (Option SvnWcInfo) :=
  match entry.findChild "wc-info" with
  | none => .ok none
  | some wcNode => do
    let a ← need (wcNode.findChild "wcroot-abspath") .attrError
    let sch ← need (wcNode.findChild "schedule") .attrError
    let d ← need (wcNode.findChild "depth") .attrError
    .ok (some ⟨a.text, sch.text, d.text⟩)

/-- Source lines 507-515: the commit subtree; `author` is added only when
the element exists (revision 0 has no author). -/
def parse_commit (entry : XmlNode) : Except XmlErr SvnCommit := do
  let commitNode ← need (entry.findChild "commit") .attrError
  let revStr ← need (commitNode.attr "revision") (.keyErr "revision")
  let rev ← need (pyInt revStr) .valueErr
  let author := (commitNode.findChild "author").map XmlNode.text
  let dateNode ← need (commitNode.findChild "date") .attrError
  .ok ⟨rev, author, dateNode.text⟩

/-- Source lines 517-525: the `lock` subtree is built only when the node
is present. -/
def parse_lock (entry : XmlNode) : Except XmlErr (Option SvnLock) :=
  match entry.findChild "lock" with
  | none => .ok none
  | some lockNode => do
    let tok ← need (lockNode.findChild "token") .attrError
    let ow ← need (lockNode.findChild "owner") .attrError
    let comment : Option String :=
      match lockNode.findChild "comment" with
      | none => some ""
      | some cn => cn.text
    let cr ← need (lockNode.findChild "created") .attrError
    .ok (some ⟨tok.text, ow.text, comment, cr.text⟩)

/-- Source `Svn.info_dict` XML shaping, lines 483-527: from the parsed
document root to the nested record. -/
def info_from_xml (root : XmlNode) : Except XmlErr SvnInfo := do
  let entry ← need (root.findChild "entry") .attrError
  let kind ← need (entry.attr "kind") (.keyErr "kind")
  let path ← need (entry.attr "path") (.keyErr "path")
  let revStr ← need (entry.attr "revision") (.keyErr "revision")
  let revision ← need (pyInt revStr) .valueErr
  let urlNode ← need (entry.findChild "url") .attrError
  let relUrlNode ← need (entry.findChild "relative-url") .attrError
  let repoNode ← need (entry.findChild "repository") .attrError
  let repoRoot ← need (repoNode.findChild "root") .attrError
  let repoUuid ← need (repoNode.findChild "uuid") .attrError
  let wcInfo ← parse_wc_info entry
  let commit ← parse_commit entry
  let lock ← parse_lock entry
  .ok ⟨kind, path, revision, urlNode.text, relUrlNode.text,
       ⟨repoRoot.text, repoUuid.text⟩, wcInfo, commit, lock⟩

end Svn

/-! ## Svn command wrapper -/

/-- A Python revision argument: `None`, an integer, or a string (symbolic
tokens such as `HEAD`, `BASE`, or an explicit numeral string). -/
inductive PyRev where
  | pynone
  | int (n : Int)
  | str (s : String)
deriving DecidableEq, Repr

/-- Rendering of a revision argument by the `%s` format specifier. -/
def PyRev.render : PyRev → String
  | .pynone => "None"
  | .int n => toString n
  | .str s => s

/-- A `revision_or_range` argument: a tuple/list range of two revisions,
or a single revision.  (The source treats tuple and list identically
except for reconstructing the same container kind in `rollback`, which
is unobservable here, so the two collapse to one constructor.) -/
inductive PyRevOrRange where
  | range (a b : PyRev)
  | single (r : PyRev)
deriving DecidableEq, Repr

/-- A `path_list` argument: a single string or a list of paths. -/
inductive PyPathList where
  | str (p : String)
  | list (ps : List String)
deriving DecidableEq, Repr

namespace Svn

/-- Source `Svn.stringing_user_pass_option` (lines 388-395). -/
def stringing_user_pass_option (user_pass : Option (String × String)) : String :=
  match user_pass with
  | none => ""
  | some (u, p) => "--username " ++ u ++ " --password " ++ p ++ " --no-auth-cache"

/-- Source `Svn.stringing_revision_option` (lines 397-401): empty for
`None` or the empty string, otherwise `-r %s`. -/
def stringing_revision_option (revision : PyRev) : String :=
  match revision with
  | .pynone => ""
  | .str s => if s = "" then "" else "-r " ++ s
  | .int n => "-r " ++ toString n

/-- Source `Svn.stringing_revision_or_range_option` (lines 403-411):
`-r M:N` for a range, `-c` for a single revision. -/
def stringing_revision_or_range_option (revision_or_range : PyRevOrRange) : String :=
  match revision_or_range with
  | .range a b => "-r " ++ a.render ++ ":" ++ b.render
  | .single r => "-c " ++ r.render

/-- Source `Svn.stringing_message_option` (lines 413-415). -/
def stringing_message_option (message : String) : String :=
  "-m \"" ++ message ++ "\""

/-- Source `Svn.stringing_path_list` (lines 417-422). -/
def stringing_path_list (path_list : PyPathList) : String :=
  match path_list with
  | .list ps => String.intercalate " " ps
  | .str p => p

/-- Source `Svn.is_url` (lines 424-429).  The first prefix literal is
`'file:\\\\\\'` in the source, i.e. `file:` followed by three
backslashes. -/
def is_url (url : String) : Bool :=
  ["file:\\\\\\", "svn://", "http://", "https://"].any
    (fun p => p.data.isPrefixOf url.data)

/-- Constructor-bound state of an `Svn` wrapper object (source lines
431-441): base command, rendered credential option, rendered
interactivity option, and the owned `Osx` object's redirect flag. -/
structure Obj where
  base_command : String
  str_user_pass_option : String
  str_interactive_option : String
  redirect_output_to_log : Bool

/-- The `Svn.__init__` defaults: base command `svn`, no credentials,
non-interactive, no output redirection. -/
def Obj.default : Obj :=
  ⟨"svn", stringing_user_pass_option none, "--non-interactive", false⟩

/-- Environment a wrapper call runs in: the behaviour of the external
processes and of the external XML parser `ElementTree.fromstring`
(`none` models a `ParseError`). -/
structure Env where
  run : String → ProcResult
  parseXml : String → Option XmlNode

/-- Full command line built by `Svn.exec_sub_command` /
`exec_sub_command_output` (lines 443-447): base command, sub-command,
interactivity option. -/
def Obj.full_command (s : Obj) (sub_command : String) : String :=
  s.base_command ++ " " ++ sub_command ++ " " ++ s.str_interactive_option

/-- Source `Svn.exec_sub_command` (lines 443-444). -/
def Obj.exec_sub_command (s : Obj) (isWin32 : Bool) (env : Env) (sub_command : String) :
    List String × Except Exc Unit :=
  let full := s.full_command sub_command
  ([full], Osx.system_exec isWin32 s.redirect_output_to_log full (env.run full))

/-- Source `Svn.exec_sub_command_output` (lines 446-447). -/
def Obj.exec_sub_command_output (s : Obj) (isWin32 : Bool) (env : Env) (sub_command : String) :
    List String × Except Exc String :=
  let full := s.full_command sub_command
  ([full], Osx.system_output isWin32 full (env.run full))

/-- Command string built by `Svn.get_revision_number` and `Svn.info_dict`
(identical construction, lines 466-470 and 477-481). -/
def info_sub_command (s : Obj) (path : String) (revision : PyRev) : String :=
  "info " ++ path ++ " --xml" ++ " " ++ stringing_revision_option revision
    ++ (if is_url path then " " ++ s.str_user_pass_option else "")

/-- Source `Svn.get_revision_number` (lines 459-474): an integer revision
is returned as is; otherwise `svn info --xml` is run and the `revision`
attribute of the `entry` element is parsed. -/
def Obj.get_revision_number (s : Obj) (isWin32 : Bool) (env : Env) (path : String)
    (revision : PyRev) : List String × Except Exc Int :=
  match revision with
  | .int n => ([], .ok n)
  | _ =>
    let (t, res) := s.exec_sub_command_output isWin32 env (info_sub_command s path revision)
    match res with
    | .error e => (t, .error e)
    | .ok out =>
      match env.parseXml out with
      | none => (t, .error .xmlParseError)
      | some root =>
        match root.findChild "entry" with
        | none => (t, .error .attributeError)
        | some entry =>
          match entry.attr "revision" with
          | none => (t, .error (.keyError "revision"))
          | some rv =>
            match pyInt rv with
            | none => (t, .error .valueError)
            | some n => (t, .ok n)

/-- Source `Svn.info_dict` (lines 476-527): run `svn info --xml`, parse
the document, shape the `entry` element into the nested record. -/
def Obj.info_dict (s : Obj) (isWin32 : Bool) (env : Env) (path : String := ".")
    (revision : PyRev := .str "HEAD") : List String × Except Exc SvnInfo :=
  let (t, res) := s.exec_sub_command_output isWin32 env (info_sub_command s path revision)
  match res with
  | .error e => (t, .error e)
  | .ok out =>
    match env.parseXml out with
    | none => (t, .error .xmlParseError)
    | some root =>
      match info_from_xml root with
      | .error e => (t, .error e.toExc)
      | .ok record => (t, .ok record)

/-- Source `Svn.commit` (lines 608-621). -/
def Obj.commit (s : Obj) (isWin32 : Bool) (env : Env) (msg : String)
    (path_list : PyPathList := .str ".") (include_external : Bool := false) :
    List String × Except Exc Unit :=
  if msg = "" then
    ([], .error (.svnNoMessage ("commit on " ++ stringing_path_list path_list)))
  else
    let cmd := "commit " ++ stringing_path_list path_list
      ++ (if include_external then " --include-externals" else "")
      ++ " " ++ stringing_message_option msg
      ++ " " ++ s.str_user_pass_option
    s.exec_sub_command isWin32 env cmd

/-- Source `Svn.lock` (lines 672-690): after a successful run of the
lock command, output starting with `svn:` signals failure; for a URL the
error fields are the literal string `None` three times, otherwise a
follow-up `info_dict` on the path supplies owner/comment/created from
its `lock` subtree (`['lock']`, a `KeyError` when absent).  The
sub-command built at lines 681-683: -/
def lock_sub_command (s : Obj) (file_path msg : String) : String :=
  "lock " ++ file_path ++ " " ++ stringing_message_option msg
    ++ " " ++ s.str_user_pass_option

/-- Source `Svn.lock` (lines 672-690), the call itself; see
`lock_sub_command`. -/
def Obj.lock (s : Obj) (isWin32 : Bool) (env : Env) (file_path msg : String) :
    List String × Except Exc Unit :=
  if msg = "" then
    ([], .error (.svnNoMessage ("lock on " ++ file_path)))
  else
    let (t, res) := s.exec_sub_command_output isWin32 env (lock_sub_command s file_path msg)
    match res with
    | .error e => (t, .error e)
    | .ok lock_result =>
      if lock_result.data.take 4 = "svn:".data then
        if is_url file_path then
          (t, .error (.svnAlreadyLocked file_path (some "None") (some "None") (some "None")))
        else
          let (t2, res2) := s.info_dict isWin32 env file_path (.str "HEAD")
          match res2 with
          | .error e => (t ++ t2, .error e)
          | .ok record =>
            match record.lock with
            | none => (t ++ t2, .error (.keyError "lock"))
            | some li =>
              (t ++ t2, .error (.svnAlreadyLocked file_path li.owner li.comment li.created))
      else
        (t, .ok ())

/-- Source `Svn.move` (lines 698-711). -/
def Obj.move (s : Obj) (isWin32 : Bool) (env : Env) (src dst msg : String) :
    List String × Except Exc Unit :=
  if msg = "" then
    ([], .error (.svnNoMessage ("move " ++ src ++ " -> " ++ dst)))
  else
    let cmd := "move " ++ src ++ " " ++ dst
      ++ " " ++ stringing_message_option msg
      ++ " --force" ++ " --parents"
      ++ " " ++ s.str_user_pass_option
    s.exec_sub_command isWin32 env cmd

/-- Source `Svn.branch` (lines 713-732): after the message check, the
destination is probed with `info_dict`; a successful probe raises the
"destination already exists" error, a probe failing with
`OsxSystemExecError` is swallowed and the copy proceeds, and any other
probe exception propagates. -/
def Obj.branch (s : Obj) (isWin32 : Bool) (env : Env) (src dst msg : String)
    (revision : PyRev := .str "HEAD") : List String × Except Exc Unit :=
  if msg = "" then
    ([], .error (.svnNoMessage ("branch " ++ src ++ " -> " ++ dst)))
  else
    let (t1, res1) := s.info_dict isWin32 env dst (.str "HEAD")
    match res1 with
    | .ok _ => (t1, .error (.svnBranchDestinationAlreadyExist dst))
    | .error (.osxSystemExec _ _ _) =>
      let cmd := "copy " ++ src ++ " " ++ dst
        ++ " " ++ stringing_revision_option revision
        ++ " " ++ stringing_message_option msg
        ++ " --parents"
        ++ " " ++ s.str_user_pass_option
      let (t2, res2) := s.exec_sub_command isWin32 env cmd
      (t1 ++ t2, res2)
    | .error e => (t1, .error e)

/-- Source `Svn.rollback` (lines 734-752): a range has both bounds
resolved through `get_revision_number`, swapped so the start is the
larger, and is rewritten to `(start, end - 1)`; a single revision `r`
resolves to `n` and is rewritten to the string `-%d` of `n`.  The
resulting `merge` sub-command is built with
`stringing_revision_or_range_option` and executed on `path path`. -/
def Obj.rollback (s : Obj) (isWin32 : Bool) (env : Env)
    (revision_or_range : PyRevOrRange) (path : String := ".") :
    List String × Except Exc Unit :=
  match revision_or_range with
  | .range r1 r2 =>
    let (t1, res1) := s.get_revision_number isWin32 env path r1
    (match res1 with
    | .error e => (t1, .error e)
    | .ok start_revision =>
      let (t2, res2) := s.get_revision_number isWin32 env path r2
      match res2 with
      | .error e => (t1 ++ t2, .error e)
      | .ok end_revision =>
        let start' := if start_revision < end_revision then end_revision else start_revision
        let end' := if start_revision < end_revision then start_revision else end_revision
        let ror := PyRevOrRange.range (.int start') (.int (end' - 1))
        let cmd := "merge " ++ " " ++ stringing_revision_or_range_option ror
          ++ " " ++ path ++ " " ++ path
        let (t3, res3) := s.exec_sub_command isWin32 env cmd
        (t1 ++ t2 ++ t3, res3))
  | .single r =>
    let (t1, res1) := s.get_revision_number isWin32 env path r
    match res1 with
    | .error e => (t1, .error e)
    | .ok n =>
      let ror := PyRevOrRange.single (.str ("-" ++ toString n))
      let cmd := "merge " ++ " " ++ stringing_revision_or_range_option ror
        ++ " " ++ path ++ " " ++ path
      let (t2, res2) := s.exec_sub_command isWin32 env cmd
      (t1 ++ t2, res2)

end Svn

/-! ## Git command wrapper -/

namespace Git

/-- Constructor-bound state of a `Git` wrapper object (source lines
762-765). -/
structure Obj where
  base_command : String
  meta_data_base_dir : String

/-- The `Git.__init__` defaults. -/
def Obj.default : Obj := ⟨"git", ".git"⟩

/-- Environment of `get_current_branch`: the content of each file that
`open` can read (`none` models the builtin error raised for a missing
file) and the external `os.path.normpath`. -/
structure Env where
  readFile : String → Option String
  normpath : String → String

/-- Windows `os.path.join` of two relative path pieces (the left piece
not ending in a separator): concatenation with a backslash. -/
def winPathJoin (a b : String) : String := a ++ "\\" ++ b

/-- Model of `fp.readline().rstrip('\n')` on a file content: everything
before the first newline (readline keeps at most one trailing newline,
which rstrip removes). -/
def readlineRstrip (s : String) : String := ⟨s.data.takeWhile (fun c => c != '\n')⟩

/-- Python `line.split(': ')` specialised to the separator the source
uses: leftmost non-overlapping splitting on the two-character separator
`': '`. -/
def splitColonSpace : List Char → List (List Char)
  | ':' :: ' ' :: rest => [] :: splitColonSpace rest
  | c :: rest =>
    (match splitColonSpace rest with
     | [] => [[c]]
     | g :: gs => (c :: g) :: gs)
  | [] => [[]]

/-- Source `Git.get_current_branch` (lines 779-799): reads
`<path>/.git/HEAD` directly, takes the piece after `': '` as the
symbolic ref, strips the `refs/heads/` prefix for the branch name, then
reads the referenced ref file for the revision.  The `open` calls sit
outside the `try` blocks, so a missing file raises the builtin IO error
rather than `GitParseMetaDataError`; a HEAD line without `': '` raises
`IndexError` inside the first `try` and becomes
`GitParseMetaDataError`. -/
def Obj.get_current_branch (g : Obj) (env : Env) (path : String := ".") :
    Except Exc (String × String) :=
  let head_file_path := winPathJoin (winPathJoin path g.meta_data_base_dir) "HEAD"
  match env.readFile head_file_path with
  | none => .error (.ioError head_file_path)
  | some content =>
    let line := readlineRstrip content
    match (splitColonSpace line.data).get? 1 with
    | none =>
      .error (.gitParseMetaData ("cannot parse branch name from head file " ++ head_file_path))
    | some refs_heads_chars =>
      let refs_heads : String := ⟨refs_heads_chars⟩
      let branch_name : String := ⟨refs_heads_chars.drop "refs/heads/".data.length⟩
      let refs_heads_path :=
        env.normpath (winPathJoin (winPathJoin path g.meta_data_base_dir) refs_heads)
      match env.readFile refs_heads_path with
      | none => .error (.ioError refs_heads_path)
      | some content2 => .ok (branch_name, readlineRstrip content2)

end Git

/-! ## Zip helper

Paths and file contents are modelled at the character/byte level:
a path is a `List Char`, a file content a `List Nat`.  A directory tree
is given as the output of `os.walk` over the source directory: the set
of directories and files, each identified by its non-empty list of path
components relative to the walked root.  `os.walk` produces each full
path by chaining `os.path.join` (separator `\` on the only supported
platform); `_zip_dir` turns it into an archive name by dropping
`len(dir_path)` characters, and `zipfile` stores it after `normpath`
(identity on component lists free of `.`, `..`, empty and separator
characters), stripping leading separators, appending `/` to directory
names, and replacing `\` by `/`. -/

namespace Zip

/-- The backslash character, `os.sep` on the supported platform. -/
def bsChar : Char := '\\'

/-- Join components with a separator character (`sep.join` /
`os.path.join` chaining). -/
def joinWith (sep : Char) : List (List Char) → List Char
  | [] => []
  | [p] => p
  | p :: q :: ps => p ++ sep :: joinWith sep (q :: ps)

/-- Python `name.replace('\\', '/')`. -/
def replaceBsSlash (s : List Char) : List Char :=
  s.map (fun c => if c = bsChar then '/' else c)

/-- The leading-separator strip performed by `zipfile.ZipFile.write` on
an archive name (`while arcname[0] in (os.sep, os.altsep)`). -/
def stripLeadingSeps : List Char → List Char
  | [] => []
  | c :: rest => if c = bsChar || c = '/' then stripLeadingSeps rest else c :: rest

/-- Splitting a `/`-separated path into components: how the filesystem
resolves the relative name passed to `open` during extraction.
`splitSlash [] = [[]]`, matching Python `''.split('/') = ['']`. -/
def splitSlash : List Char → List (List Char)
  | [] => [[]]
  | c :: rest =>
    if c = '/' then [] :: splitSlash rest
    else
      match splitSlash rest with
      | [] => [[c]]
      | g :: gs => (c :: g) :: gs

/-- One entry of the `os.walk` output: a directory or a file (with
content), identified by its path components relative to the walked
root. -/
inductive WalkItem where
  | dirItem (comps : List (List Char))
  | fileItem (comps : List (List Char)) (content : List Nat)
deriving DecidableEq

/-- Full path of a walk entry: the walked root joined with each
component in turn (`os.path.join(root, name)` along the walk). -/
def osJoinAll (dirPath : List Char) (comps : List (List Char)) : List Char :=
  dirPath ++ bsChar :: joinWith bsChar comps

/-- Source line 844: `archive_name = file[len(dir_path):]`. -/
def archiveName (dirPath full : List Char) : List Char :=
  full.drop dirPath.length

/-- Name under which `zipfile.ZipFile.write` stores an archive member:
leading separators stripped, `/` appended for a directory, `\` replaced
by `/` (the source appends `/` before the replacement; the two orders
agree since `/` is untouched by the replacement). -/
def zipStoredName (arc : List Char) (isDir : Bool) : List Char :=
  replaceBsSlash (stripLeadingSeps arc) ++ (if isDir then ['/'] else [])

/-- An archive member: stored name and stored data (empty for a
directory member). -/
abbrev ZipEntry := List Char × List Nat

/-- Source `Zip._zip_dir` (lines 834-846): every directory and file of
the walk becomes one archive member, named relative to the zipped
root. -/
def _zip_dir (dirPath : List Char) (items : List WalkItem) : List ZipEntry :=
  items.map (fun it =>
    match it with
    | .dirItem cs => (zipStoredName (archiveName dirPath (osJoinAll dirPath cs)) true, [])
    | .fileItem cs c => (zipStoredName (archiveName dirPath (osJoinAll dirPath cs)) false, c))

/-- Model of `os.path.basename` on the supported platform: the part
after the last separator. -/
def basename (p : List Char) : List Char :=
  (splitSlash (replaceBsSlash p)).getLastD []

/-- Source `Zip._zip_file` (lines 828-832): a single member named by the
basename of the source file. -/
def _zip_file (file_path : List Char) (content : List Nat) : List ZipEntry :=
  [(zipStoredName (basename file_path) false, content)]

/-- What `Zip.zip` is invoked on: a single file (`os.path.isfile`) or a
directory tree. -/
inductive ZipSource where
  | file (file_path : List Char) (content : List Nat)
  | dir (dirPath : List Char) (items : List WalkItem)

/-- Source `Zip.zip` (lines 848-855): dispatch on whether the source
path is a single file. -/
def zip : ZipSource → List ZipEntry
  | .file fp c => _zip_file fp c
  | .dir dirPath items => _zip_dir dirPath items

/-- The files created under the extraction directory, as component paths
relative to it, most recent write first. -/
abbrev ExtractedFs := List (List (List Char) × List Nat)

/-- One iteration of the extraction loop of `Zip.unzip` (lines 864-877):
backslashes are normalized to `/`; a name ending in `/` only creates
directories; otherwise the member data is written to the name's path
under the extraction directory. -/
def unzip_step (fs : ExtractedFs) (e : ZipEntry) : ExtractedFs :=
  let name := replaceBsSlash e.1
  if name.getLast? = some '/' then fs
  else (splitSlash name, e.2) :: fs

/-- Source `Zip.unzip` (lines 857-877), restricted to its observable
effect on files: the loop over `namelist()` in member order. -/
def unzip (entries : List ZipEntry) : ExtractedFs :=
  entries.foldl unzip_step []

/-- Content of the file at a relative component path after extraction
(`none` when no member created it). -/
def fsRead (fs : ExtractedFs) (p : List (List Char)) : Option (List Nat) :=
  (fs.find? (fun q => q.1 == p)).map (fun q => q.2)

/-- Well-formedness of one path component as produced by a real
directory walk: non-empty, no separator characters, not the special
names `.` and `..` (under these `os.path.normpath` is the identity on
the joined path). -/
def goodComp (p : List Char) : Prop :=
  p ≠ [] ∧ '/' ∉ p ∧ bsChar ∉ p ∧ p ≠ ['.'] ∧ p ≠ ['.', '.']

instance (p : List Char) : Decidable (goodComp p) := by
  unfold goodComp; infer_instance

/-- Well-formedness of a relative component path. -/
def goodPath (cs : List (List Char)) : Prop :=
  cs ≠ [] ∧ ∀ p ∈ cs, goodComp p

instance (cs : List (List Char)) : Decidable (goodPath cs) := by
  unfold goodPath; infer_instance

/-- Well-formedness of a walk entry. -/
def goodItem : WalkItem → Prop
  | .dirItem cs => goodPath cs
  | .fileItem cs _ => goodPath cs

instance (it : WalkItem) : Decidable (goodItem it) := by
  cases it <;> (unfold goodItem; infer_instance)

/-- The relative component paths of the file entries of a walk. -/
def filePaths (items : List WalkItem) : List (List (List Char)) :=
  items.filterMap (fun it =>
    match it with
    | .fileItem cs _ => some cs
    | .dirItem _ => none)

/-- The file entries of a walk as path-content pairs. -/
def fileEntries (items : List WalkItem) : List (List (List Char) × List Nat) :=
  items.filterMap (fun it =>
    match it with
    | .fileItem cs c => some (cs, c)
    | .dirItem _ => none)

end Zip

/-! ## Concrete fixtures used by witnesses and counterexamples -/

/-- A complete `svn info --xml` document whose `entry` carries a `lock`
element (owner `alice`, no `comment` element) and no `wc-info`
element. -/
def fixtureInfoXmlLock : XmlNode :=
  .mk "info" [] none
    [.mk "entry" [("kind", "file"), ("path", "a.txt"), ("revision", "7")] none
      [.mk "url" [] (some "http://h/a.txt") [],
       .mk "relative-url" [] (some "^/a.txt") [],
       .mk "repository" [] none
         [.mk "root" [] (some "http://h") [],
          .mk "uuid" [] (some "uuid-1") []],
       .mk "commit" [("revision", "7")] none
         [.mk "author" [] (some "alice") [],
          .mk "date" [] (some "2020-01-01") []],
       .mk "lock" [] none
         [.mk "token" [] (some "opaquelocktoken-1") [],
          .mk "owner" [] (some "alice") [],
          .mk "created" [] (some "2020-01-02") []]]]

/-- The `entry` element of an `svn info --xml` response with neither a
`wc-info` nor a `lock` element (the shape of a remote-URL query). -/
def fixturePlainEntry : XmlNode :=
  .mk "entry" [("kind", "dir"), ("path", "proj"), ("revision", "3")] none
    [.mk "url" [] (some "http://h/proj") [],
     .mk "relative-url" [] (some "^/proj") [],
     .mk "repository" [] none
       [.mk "root" [] (some "http://h") [],
        .mk "uuid" [] (some "uuid-1") []],
     .mk "commit" [("revision", "3")] none
       [.mk "author" [] (some "bob") [],
        .mk "date" [] (some "2020-01-01") []]]

/-- A complete `svn info --xml` document around `fixturePlainEntry`. -/
def fixtureInfoXmlPlain : XmlNode :=
  .mk "info" [] none [fixturePlainEntry]

/-- The record `info_from_xml` produces for `fixtureInfoXmlPlain`. -/
def fixturePlainRecord : Svn.SvnInfo :=
  ⟨"dir", "proj", 3, some "http://h/proj", some "^/proj",
   ⟨some "http://h", some "uuid-1"⟩, none,
   ⟨3, some (some "bob"), some "2020-01-01"⟩, none⟩

/-- An environment in which every command succeeds with empty output and
no output parses as XML. -/
def quietSvnEnv : Svn.Env :=
  ⟨fun _ => ⟨0, ""⟩, fun _ => none⟩

/-- Environment for exercising `Svn.lock` on the working-copy file
`a.txt` with message `m`: the lock command reports an error line on its
stdout, every other command prints a document that parses as
`fixtureInfoXmlLock`. -/
def lockFixtureEnv : Svn.Env :=
  ⟨fun c =>
    if c = Svn.Obj.default.full_command (Svn.lock_sub_command Svn.Obj.default "a.txt" "m")
    then ⟨0, "svn: warning: W160035: Path is already locked"⟩
    else ⟨0, "<xml>"⟩,
   fun _ => some fixtureInfoXmlLock⟩

/-- Environment for exercising `Svn.lock` on a URL: every command
reports an error line on its stdout, and every command output parses as
`fixtureInfoXmlLock` (so a follow-up info query, had one been made,
would have reported owner `alice`). -/
def lockUrlFixtureEnv : Svn.Env :=
  ⟨fun _ => ⟨0, "svn: warning: W160035: Path is already locked"⟩,
   fun _ => some fixtureInfoXmlLock⟩

/-- Git metadata environment in which no file can be opened. -/
def gitMissingEnv : Git.Env :=
  ⟨fun _ => none, fun p => p⟩

/-- Git metadata environment of a repository `repo` on branch `master`
at commit `abc123`. -/
def gitRepoEnv : Git.Env :=
  ⟨fun p =>
    if p = "repo\\.git\\HEAD" then some "ref: refs/heads/master\n"
    else if p = "repo\\.git\\refs/heads/master" then some "abc123\n"
    else none,
   fun p => p⟩

/-! ## Claims -/

/-- C5: for every process that exits with non-zero code `N`, the failure
raised by the process runner carries a normalized exit code equal to `N`
itself on the Windows platform and `N` shifted right by 8 bits on other
platforms, and this same transform is applied in the execute path
(`system_exec`, both output modes) and in the capture-output path
(`system_output`). -/
theorem exit_code_normalization (isWin32 redirect : Bool) (cmd : String)
    (res : ProcResult) (h : res.returncode ≠ 0) :
    execErrorCode (Osx.system_exec isWin32 redirect cmd res)
      = some (if isWin32 then res.returncode else res.returncode >>> 8) ∧
    execErrorCode (Osx.system_output isWin32 cmd res)
      = some (if isWin32 then res.returncode else res.returncode >>> 8) := by
  constructor
  · cases redirect <;>
      simp [Osx.system_exec, Osx._system_exec_1, Osx._system_exec_2,
        Osx._fix_cmd_retcode, execErrorCode, h]
  · simp [Osx.system_output, execErrorCode, h]

/-- Witness for `exit_code_normalization`: a process exiting with status
2560 on the non-Windows convention is reported with code 10. -/
theorem exit_code_normalization_witness :
    (2560 : Nat) ≠ 0 ∧
    execErrorCode (Osx.system_exec false false "c" ⟨2560, "o"⟩) = some 10 ∧
    execErrorCode (Osx.system_output false "c" ⟨2560, "o"⟩) = some 10 := by
  have h := exit_code_normalization false false "c" ⟨2560, "o"⟩ (by decide)
  refine ⟨by decide, ?_, ?_⟩
  · rw [h.1]; decide
  · rw [h.2]; decide

/-- C7: `remove_path` on an absent path is a no-op when `force` is true
(the default) and raises the path-not-found error when `force` is false;
an existing path that is neither file nor directory raises the
unsupported-path-type error; a directory dispatches to `rd /s/q`, a file
to `del /f/q`. -/
theorem remove_path_spec (isWin32 redirect : Bool) (env : Osx.FsEnv)
    (path : String) (force : Bool) :
    (env.kind path = .absent →
      Osx.remove_path isWin32 redirect env path true = ([], .ok ()) ∧
      Osx.remove_path isWin32 redirect env path false
        = ([], .error (.osxPathNotExist path))) ∧
    (env.kind path = .dir →
      Osx.remove_path isWin32 redirect env path force
        = Osx.exec_command isWin32 redirect env ("rd /s/q " ++ env.normpath path)) ∧
    (env.kind path = .file →
      Osx.remove_path isWin32 redirect env path force
        = Osx.exec_command isWin32 redirect env ("del /f/q " ++ env.normpath path)) ∧
    (env.kind path = .other →
      Osx.remove_path isWin32 redirect env path force
        = ([], .error (.osxPathTypeUnsupported path))) := by
  refine ⟨fun h => ?_, fun h => ?_, fun h => ?_, fun h => ?_⟩ <;>
    simp [Osx.remove_path, h]

/-- Witness for `remove_path_spec`: all four path kinds at concrete
inputs, with `rd`/`del` visible in the executed command. -/
theorem remove_path_spec_witness :
    Osx.remove_path true false ⟨fun _ => .absent, fun _ => ⟨0, ""⟩, fun p => p⟩ "x" true
      = ([], .ok ()) ∧
    Osx.remove_path true false ⟨fun _ => .absent, fun _ => ⟨0, ""⟩, fun p => p⟩ "x" false
      = ([], .error (.osxPathNotExist "x")) ∧
    Osx.remove_path true false ⟨fun _ => .dir, fun _ => ⟨0, ""⟩, fun p => p⟩ "x" true
      = (["rd /s/q x"], .ok ()) ∧
    Osx.remove_path true false ⟨fun _ => .file, fun _ => ⟨0, ""⟩, fun p => p⟩ "x" true
      = (["del /f/q x"], .ok ()) ∧
    Osx.remove_path true false ⟨fun _ => .other, fun _ => ⟨0, ""⟩, fun p => p⟩ "x" true
      = ([], .error (.osxPathTypeUnsupported "x")) := by
  refine ⟨?_, ?_, ?_, ?_, ?_⟩
  · exact ((remove_path_spec true false ⟨fun _ => .absent, fun _ => ⟨0, ""⟩, fun p => p⟩
      "x" true).1 rfl).1
  · exact ((remove_path_spec true false ⟨fun _ => .absent, fun _ => ⟨0, ""⟩, fun p => p⟩
      "x" false).1 rfl).2
  · exact ((remove_path_spec true false ⟨fun _ => .dir, fun _ => ⟨0, ""⟩, fun p => p⟩
      "x" true).2.1 rfl).trans rfl
  · exact ((remove_path_spec true false ⟨fun _ => .file, fun _ => ⟨0, ""⟩, fun p => p⟩
      "x" true).2.2.1 rfl).trans rfl
  · exact (remove_path_spec true false ⟨fun _ => .other, fun _ => ⟨0, ""⟩, fun p => p⟩
      "x" true).2.2.2 rfl

/-- C8 (code bug): when the copy command itself fails, `copy_dir` with a
non-empty exclude list propagates the failure before the `os.remove`
line, so the temporary exclude-list file still exists when the call
returns: at the concrete failing input (xcopy exit code 4) the temporary
file remains. -/
theorem copy_dir_temp_file_leak :
    (Osx.copy_dir true false ⟨fun _ => .dir, fun _ => ⟨4, "f"⟩, fun p => p⟩
        "C:\\t\\x" "src" "dst" (some ["a.txt"])).tempFileExists = true ∧
    (Osx.copy_dir true false ⟨fun _ => .dir, fun _ => ⟨4, "f"⟩, fun p => p⟩
        "C:\\t\\x" "src" "dst" (some ["a.txt"])).outcome
      = .error (.osxSystemExec "xcopy src\\* dst /r/i/c/k/h/e/q/y/exclude:C:\\t\\x" 4 none) ∧
    (Osx.copy_dir true false ⟨fun _ => .dir, fun _ => ⟨0, ""⟩, fun p => p⟩
        "C:\\t\\x" "src" "dst" (some ["a.txt"])).tempFileExists = false := by
  exact ⟨rfl, rfl, rfl⟩

/-- Swap helper: the larger bound, as the source computes it. -/
theorem if_lt_eq_max (a b : Int) : (if a < b then b else a) = max a b := by
  rcases le_or_lt b a with h | h
  · rw [if_neg (not_lt.mpr h), max_eq_left h]
  · rw [if_pos h, max_eq_right h.le]

/-- Swap helper: the smaller bound, as the source computes it. -/
theorem if_lt_eq_min (a b : Int) : (if a < b then a else b) = min a b := by
  rcases le_or_lt b a with h | h
  · rw [if_neg (not_lt.mpr h), min_eq_right h]
  · rw [if_pos h, min_eq_left h.le]

/-- C1: `rollback` on a range resolves both bounds through
`get_revision_number` (the info query for non-integer revisions), swaps
them so the start is the larger, and builds the merge sub-command from
the descending range `(max a b, min a b - 1)`; in particular the range
`(10, 5)` produces the merge argument `-r 10:4`.  A single revision
resolving to `n` produces the negative single-revision form `-c -n`. -/
theorem rollback_merge_argument (s : Svn.Obj) (isWin32 : Bool) (env : Svn.Env)
    (path : String) :
    (∀ (r1 r2 : PyRev) (t1 t2 : List String) (a b : Int),
      s.get_revision_number isWin32 env path r1 = (t1, .ok a) →
      s.get_revision_number isWin32 env path r2 = (t2, .ok b) →
      s.rollback isWin32 env (.range r1 r2) path =
        (t1 ++ t2 ++
          (s.exec_sub_command isWin32 env
            ("merge " ++ " "
              ++ Svn.stringing_revision_or_range_option
                   (.range (.int (max a b)) (.int (min a b - 1)))
              ++ " " ++ path ++ " " ++ path)).1,
         (s.exec_sub_command isWin32 env
            ("merge " ++ " "
              ++ Svn.stringing_revision_or_range_option
                   (.range (.int (max a b)) (.int (min a b - 1)))
              ++ " " ++ path ++ " " ++ path)).2)) ∧
    (s.rollback isWin32 env (.range (.int 10) (.int 5)) path =
      s.exec_sub_command isWin32 env
        ("merge " ++ " " ++ "-r 10:4" ++ " " ++ path ++ " " ++ path)) ∧
    (∀ (r : PyRev) (t : List String) (n : Int),
      s.get_revision_number isWin32 env path r = (t, .ok n) →
      s.rollback isWin32 env (.single r) path =
        (t ++
          (s.exec_sub_command isWin32 env
            ("merge " ++ " "
              ++ Svn.stringing_revision_or_range_option (.single (.str ("-" ++ toString n)))
              ++ " " ++ path ++ " " ++ path)).1,
         (s.exec_sub_command isWin32 env
            ("merge " ++ " "
              ++ Svn.stringing_revision_or_range_option (.single (.str ("-" ++ toString n)))
              ++ " " ++ path ++ " " ++ path)).2)) := by
  have hrange : ∀ (r1 r2 : PyRev) (t1 t2 : List String) (a b : Int),
      s.get_revision_number isWin32 env path r1 = (t1, .ok a) →
      s.get_revision_number isWin32 env path r2 = (t2, .ok b) →
      s.rollback isWin32 env (.range r1 r2) path =
        (t1 ++ t2 ++
          (s.exec_sub_command isWin32 env
            ("merge " ++ " "
              ++ Svn.stringing_revision_or_range_option
                   (.range (.int (max a b)) (.int (min a b - 1)))
              ++ " " ++ path ++ " " ++ path)).1,
         (s.exec_sub_command isWin32 env
            ("merge " ++ " "
              ++ Svn.stringing_revision_or_range_option
                   (.range (.int (max a b)) (.int (min a b - 1)))
              ++ " " ++ path ++ " " ++ path)).2) := by
    intro r1 r2 t1 t2 a b h1 h2
    simp only [Svn.Obj.rollback, h1, h2, if_lt_eq_max, if_lt_eq_min]
  refine ⟨hrange, ?_, ?_⟩
  · have h := hrange (.int 10) (.int 5) [] [] 10 5 rfl rfl
    rw [h]
    rfl
  · intro r t n h
    simp only [Svn.Obj.rollback, h]

/-- Witness for `rollback_merge_argument`: integer bounds resolve
immediately, and the concrete range `(10, 5)` yields the merge argument
`-r 10:4` while the single revision `7` yields `-c -7`. -/
theorem rollback_merge_argument_witness :
    Svn.Obj.default.rollback true quietSvnEnv (.range (.int 10) (.int 5)) "."
      = (["svn merge  -r 10:4 . . --non-interactive"], .ok ()) ∧
    Svn.Obj.default.rollback true quietSvnEnv (.single (.int 7)) "."
      = (["svn merge  -c -7 . . --non-interactive"], .ok ()) := by
  have h := rollback_merge_argument Svn.Obj.default true quietSvnEnv "."
  have h1 := h.2.1
  have h3 := h.2.2 (.int 7) [] 7 rfl
  constructor
  · rw [h1]; rfl
  · rw [h3]; rfl

/-- C10: `lock` on a URL path whose lock output starts with `svn:`
raises the already-locked error with owner, comment and date each set to
the literal string `None`, and performs no follow-up info query (the
executed-command trace is exactly the one lock command). -/
theorem lock_url_literal_none (s : Svn.Obj) (isWin32 : Bool) (env : Svn.Env)
    (file_path msg out : String)
    (hmsg : msg ≠ "")
    (hurl : Svn.is_url file_path = true)
    (hout : Osx.system_output isWin32 (s.full_command (Svn.lock_sub_command s file_path msg))
        (env.run (s.full_command (Svn.lock_sub_command s file_path msg))) = .ok out)
    (hpre : out.data.take 4 = "svn:".data) :
    s.lock isWin32 env file_path msg =
      ([s.full_command (Svn.lock_sub_command s file_path msg)],
       .error (.svnAlreadyLocked file_path (some "None") (some "None") (some "None"))) := by
  simp only [Svn.Obj.lock, if_neg hmsg, Svn.Obj.exec_sub_command_output, hout, hpre, hurl]
  simp

/-- Witness for `lock_url_literal_none` at a concrete URL and
environment. -/
theorem lock_url_literal_none_witness :
    Svn.Obj.default.lock true lockUrlFixtureEnv "http://h/a.txt" "m"
      = ([Svn.Obj.default.full_command
            (Svn.lock_sub_command Svn.Obj.default "http://h/a.txt" "m")],
         .error (.svnAlreadyLocked "http://h/a.txt" (some "None") (some "None") (some "None"))) :=
  lock_url_literal_none Svn.Obj.default true lockUrlFixtureEnv "http://h/a.txt" "m"
    "svn: warning: W160035: Path is already locked" (by decide) (by rfl) rfl (by rfl)

/-- C3 counterexample: on a URL path the already-locked error is not
populated from a follow-up info query: at this concrete input the lock
output starts with `svn:`, the raised error carries the literal string
`None` in all three fields and the trace holds only the lock command,
even though an info query in the very same environment reports lock
owner `alice`. -/
theorem lock_info_population_counterexample :
    Svn.Obj.default.lock true lockUrlFixtureEnv "http://h/a.txt" "m"
      = ([Svn.Obj.default.full_command
            (Svn.lock_sub_command Svn.Obj.default "http://h/a.txt" "m")],
         .error (.svnAlreadyLocked "http://h/a.txt" (some "None") (some "None") (some "None"))) ∧
    (Svn.Obj.default.info_dict true lockUrlFixtureEnv "http://h/a.txt" (.str "HEAD")).2
      = .ok ⟨"file", "a.txt", 7, some "http://h/a.txt", some "^/a.txt",
             ⟨some "http://h", some "uuid-1"⟩, none,
             ⟨7, some (some "alice"), some "2020-01-01"⟩,
             some ⟨some "opaquelocktoken-1", some "alice", some "", some "2020-01-02"⟩⟩ :=
  ⟨rfl, rfl⟩

/-- C3 (amended to non-URL paths): when the lock output starts with
`svn:` on a working-copy path, the already-locked error carries the
owner, comment and creation date of the `lock` subtree returned by the
follow-up `info_dict` query, whose command trace follows the lock
command. -/
theorem lock_nonurl_info_population (s : Svn.Obj) (isWin32 : Bool) (env : Svn.Env)
    (file_path msg out : String) (t2 : List String) (record : Svn.SvnInfo) (li : Svn.SvnLock)
    (hmsg : msg ≠ "")
    (hurl : Svn.is_url file_path = false)
    (hout : Osx.system_output isWin32 (s.full_command (Svn.lock_sub_command s file_path msg))
        (env.run (s.full_command (Svn.lock_sub_command s file_path msg))) = .ok out)
    (hpre : out.data.take 4 = "svn:".data)
    (hinfo : s.info_dict isWin32 env file_path (.str "HEAD") = (t2, .ok record))
    (hlock : record.lock = some li) :
    s.lock isWin32 env file_path msg =
      ([s.full_command (Svn.lock_sub_command s file_path msg)] ++ t2,
       .error (.svnAlreadyLocked file_path li.owner li.comment li.created)) := by
  simp only [Svn.Obj.lock, if_neg hmsg, Svn.Obj.exec_sub_command_output, hout, hpre, hurl,
    hinfo, hlock]
  simp

/-- Witness for `lock_nonurl_info_population`: locking `a.txt` in
`lockFixtureEnv` raises the already-locked error with owner `alice`,
comment `""` and date `2020-01-02` taken from the info query, whose
command appears in the trace after the lock command. -/
theorem lock_nonurl_info_population_witness :
    Svn.Obj.default.lock true lockFixtureEnv "a.txt" "m"
      = ([Svn.Obj.default.full_command (Svn.lock_sub_command Svn.Obj.default "a.txt" "m")]
          ++ [Svn.Obj.default.full_command
                (Svn.info_sub_command Svn.Obj.default "a.txt" (.str "HEAD"))],
         .error (.svnAlreadyLocked "a.txt" (some "alice") (some "") (some "2020-01-02"))) :=
  lock_nonurl_info_population Svn.Obj.default true lockFixtureEnv "a.txt" "m"
    "svn: warning: W160035: Path is already locked"
    [Svn.Obj.default.full_command (Svn.info_sub_command Svn.Obj.default "a.txt" (.str "HEAD"))]
    ⟨"file", "a.txt", 7, some "http://h/a.txt", some "^/a.txt",
     ⟨some "http://h", some "uuid-1"⟩, none,
     ⟨7, some (some "alice"), some "2020-01-01"⟩,
     some ⟨some "opaquelocktoken-1", some "alice", some "", some "2020-01-02"⟩⟩
    ⟨some "opaquelocktoken-1", some "alice", some "", some "2020-01-02"⟩
    (by decide) (by rfl) (by rfl) (by rfl) (by rfl) (by rfl)

/-- Inversion of a successful `Except` bind. -/
theorem except_bind_ok {ε α β : Type} (x : Except ε α) (f : α → Except ε β) (b : β) :
    x >>= f = .ok b ↔ ∃ a, x = .ok a ∧ f a = .ok b := by
  cases x <;> simp [Bind.bind, Except.bind]

/-- Inversion of a successful `need`. -/
theorem need_ok {α : Type} (o : Option α) (e : Svn.XmlErr) (a : α) :
    Svn.need o e = .ok a ↔ o = some a := by
  cases o <;> simp [Svn.need]

/-- The working-copy subtree produced by `parse_wc_info` is present
exactly when the `wc-info` element is. -/
theorem parse_wc_info_isSome (entry : XmlNode) (w : Option Svn.SvnWcInfo)
    (h : Svn.parse_wc_info entry = .ok w) :
    w.isSome = (entry.findChild "wc-info").isSome := by
  unfold Svn.parse_wc_info at h
  cases hf : entry.findChild "wc-info" with
  | none =>
    rw [hf] at h
    cases h
    simp [hf]
  | some wc =>
    rw [hf] at h
    rw [except_bind_ok] at h
    obtain ⟨a, _, h⟩ := h
    rw [except_bind_ok] at h
    obtain ⟨b, _, h⟩ := h
    rw [except_bind_ok] at h
    obtain ⟨c, _, h⟩ := h
    cases h
    simp [hf]

/-- The lock subtree produced by `parse_lock` is present exactly when
the `lock` element is. -/
theorem parse_lock_isSome (entry : XmlNode) (l : Option Svn.SvnLock)
    (h : Svn.parse_lock entry = .ok l) :
    l.isSome = (entry.findChild "lock").isSome := by
  unfold Svn.parse_lock at h
  cases hf : entry.findChild "lock" with
  | none =>
    rw [hf] at h
    cases h
    simp [hf]
  | some ln =>
    rw [hf] at h
    rw [except_bind_ok] at h
    obtain ⟨a, _, h⟩ := h
    rw [except_bind_ok] at h
    obtain ⟨b, _, h⟩ := h
    rw [except_bind_ok] at h
    obtain ⟨c, _, h⟩ := h
    cases h
    simp [hf]

/-- C4: whenever `info_from_xml` succeeds, the produced record contains
the working-copy subtree exactly when the response's `entry` element has
a `wc-info` child, and likewise the lock subtree exactly when the
`entry` element has a `lock` child; an absent subtree is an absent key
(`none`), not a present key with null fields. -/
theorem info_optional_subtrees (root entry : XmlNode) (record : Svn.SvnInfo)
    (hok : Svn.info_from_xml root = .ok record)
    (hentry : root.findChild "entry" = some entry) :
    record.wc_info.isSome = (entry.findChild "wc-info").isSome ∧
    record.lock.isSome = (entry.findChild "lock").isSome := by
  unfold Svn.info_from_xml at hok
  rw [except_bind_ok] at hok
  obtain ⟨entry', he', hok⟩ := hok
  rw [need_ok, hentry] at he'
  cases he'
  rw [except_bind_ok] at hok
  obtain ⟨kind, _, hok⟩ := hok
  rw [except_bind_ok] at hok
  obtain ⟨path, _, hok⟩ := hok
  rw [except_bind_ok] at hok
  obtain ⟨revStr, _, hok⟩ := hok
  rw [except_bind_ok] at hok
  obtain ⟨revision, _, hok⟩ := hok
  rw [except_bind_ok] at hok
  obtain ⟨urlNode, _, hok⟩ := hok
  rw [except_bind_ok] at hok
  obtain ⟨relUrlNode, _, hok⟩ := hok
  rw [except_bind_ok] at hok
  obtain ⟨repoNode, _, hok⟩ := hok
  rw [except_bind_ok] at hok
  obtain ⟨repoRoot, _, hok⟩ := hok
  rw [except_bind_ok] at hok
  obtain ⟨repoUuid, _, hok⟩ := hok
  rw [except_bind_ok] at hok
  obtain ⟨wcInfo, hw, hok⟩ := hok
  rw [except_bind_ok] at hok
  obtain ⟨commit, _, hok⟩ := hok
  rw [except_bind_ok] at hok
  obtain ⟨lock, hl, hok⟩ := hok
  cases hok
  exact ⟨parse_wc_info_isSome entry wcInfo hw, parse_lock_isSome entry lock hl⟩

/-- Witness for `info_optional_subtrees`: the remote-URL shaped fixture
yields a record whose working-copy and lock keys are both absent. -/
theorem info_optional_subtrees_witness :
    Svn.info_from_xml fixtureInfoXmlPlain = .ok fixturePlainRecord ∧
    fixturePlainRecord.wc_info = none ∧
    fixturePlainRecord.lock = none ∧
    fixturePlainRecord.wc_info.isSome = (fixturePlainEntry.findChild "wc-info").isSome ∧
    fixturePlainRecord.lock.isSome = (fixturePlainEntry.findChild "lock").isSome := by
  have h := info_optional_subtrees fixtureInfoXmlPlain fixturePlainEntry fixturePlainRecord
    rfl rfl
  exact ⟨rfl, rfl, rfl, h.1, h.2⟩

/-- Shape of a `system_output` failure: always a process-execution
error. -/
theorem system_output_error_shape (isWin32 : Bool) (cmd : String) (res : ProcResult) (e : Exc)
    (h : Osx.system_output isWin32 cmd res = .error e) :
    e = .osxSystemExec cmd (if isWin32 then res.returncode else res.returncode >>> 8)
      (some res.output) := by
  unfold Osx.system_output at h
  split at h
  · exact absurd h (by simp)
  · exact (Except.error.inj h).symm

/-- A `system_exec` failure is never the "message required" error. -/
theorem system_exec_not_noMessage (isWin32 redirect : Bool) (cmd : String) (res : ProcResult) :
    failsWithNoMessage (Osx.system_exec isWin32 redirect cmd res) = false := by
  unfold Osx.system_exec Osx._system_exec_1 Osx._system_exec_2
  split <;> split <;> rfl

/-- A `system_output` failure is never the "message required" error. -/
theorem system_output_not_noMessage (isWin32 : Bool) (cmd : String) (res : ProcResult) :
    failsWithNoMessage (Osx.system_output isWin32 cmd res) = false := by
  unfold Osx.system_output
  split <;> rfl

/-- An `exec_sub_command` failure is never the "message required"
error. -/
theorem exec_sub_command_not_noMessage (s : Svn.Obj) (isWin32 : Bool) (env : Svn.Env)
    (sub : String) :
    failsWithNoMessage (s.exec_sub_command isWin32 env sub).2 = false := by
  simp only [Svn.Obj.exec_sub_command]
  exact system_exec_not_noMessage isWin32 s.redirect_output_to_log
    (s.full_command sub) (env.run (s.full_command sub))

/-- An `info_dict` failure is never the "message required" error. -/
theorem info_dict_not_noMessage (s : Svn.Obj) (isWin32 : Bool) (env : Svn.Env)
    (path : String) (revision : PyRev) :
    failsWithNoMessage (s.info_dict isWin32 env path revision).2 = false := by
  simp only [Svn.Obj.info_dict, Svn.Obj.exec_sub_command_output]
  split
  · rename_i e heq
    have hshape := system_output_error_shape _ _ _ _ heq
    subst hshape
    rfl
  · rename_i out heq
    split
    · rfl
    · split
      · rename_i e heq2
        cases e <;> rfl
      · rfl

/-- C6: `commit`, `lock`, `move` and `branch` each raise the
"message required" error on an empty message before any external
command is executed (the trace is empty), and with a non-empty message
none of them ever fails with that error. -/
theorem svn_message_required (s : Svn.Obj) (isWin32 : Bool) (env : Svn.Env)
    (path_list : PyPathList) (include_external : Bool)
    (file_path src dst : String) (revision : PyRev) (msg : String) :
    (s.commit isWin32 env "" path_list include_external
      = ([], .error (.svnNoMessage ("commit on " ++ Svn.stringing_path_list path_list)))) ∧
    (s.lock isWin32 env file_path ""
      = ([], .error (.svnNoMessage ("lock on " ++ file_path)))) ∧
    (s.move isWin32 env src dst ""
      = ([], .error (.svnNoMessage ("move " ++ src ++ " -> " ++ dst)))) ∧
    (s.branch isWin32 env src dst "" revision
      = ([], .error (.svnNoMessage ("branch " ++ src ++ " -> " ++ dst)))) ∧
    (msg ≠ "" →
      failsWithNoMessage (s.commit isWin32 env msg path_list include_external).2 = false ∧
      failsWithNoMessage (s.lock isWin32 env file_path msg).2 = false ∧
      failsWithNoMessage (s.move isWin32 env src dst msg).2 = false ∧
      failsWithNoMessage (s.branch isWin32 env src dst msg revision).2 = false) := by
  refine ⟨by simp [Svn.Obj.commit], by simp [Svn.Obj.lock], by simp [Svn.Obj.move],
    by simp [Svn.Obj.branch], fun hmsg => ⟨?_, ?_, ?_, ?_⟩⟩
  · rw [Svn.Obj.commit, if_neg hmsg]
    exact exec_sub_command_not_noMessage s isWin32 env _
  · rw [Svn.Obj.lock, if_neg hmsg]
    simp only [Svn.Obj.exec_sub_command_output]
    split
    · rename_i e heq
      have hshape := system_output_error_shape _ _ _ _ heq
      subst hshape
      rfl
    · rename_i out heq
      split
      · split
        · rfl
        · split
          · rename_i e heq2
            have hnm := info_dict_not_noMessage s isWin32 env file_path (.str "HEAD")
            rw [heq2] at hnm
            exact hnm
          · split <;> rfl
      · rfl
  · rw [Svn.Obj.move, if_neg hmsg]
    exact exec_sub_command_not_noMessage s isWin32 env _
  · rw [Svn.Obj.branch, if_neg hmsg]
    split
    rename_i x t1 res1 heq
    split
    · rfl
    · dsimp only
      exact exec_sub_command_not_noMessage s isWin32 env _
    · have hnm := info_dict_not_noMessage s isWin32 env dst (.str "HEAD")
      rw [heq] at hnm
      exact hnm

/-- Witness for `svn_message_required`: all four operations at concrete
inputs, with empty and with non-empty messages. -/
theorem svn_message_required_witness :
    (Svn.Obj.default.commit true quietSvnEnv "" (.str ".") false
      = ([], .error (.svnNoMessage "commit on ."))) ∧
    (Svn.Obj.default.lock true quietSvnEnv "a.txt" ""
      = ([], .error (.svnNoMessage "lock on a.txt"))) ∧
    (Svn.Obj.default.move true quietSvnEnv "a" "b" ""
      = ([], .error (.svnNoMessage "move a -> b"))) ∧
    (Svn.Obj.default.branch true quietSvnEnv "a" "b" "" (.str "HEAD")
      = ([], .error (.svnNoMessage "branch a -> b"))) ∧
    failsWithNoMessage (Svn.Obj.default.commit true quietSvnEnv "m" (.str ".") false).2
      = false ∧
    failsWithNoMessage (Svn.Obj.default.lock true quietSvnEnv "a.txt" "m").2 = false ∧
    failsWithNoMessage (Svn.Obj.default.move true quietSvnEnv "a" "b" "m").2 = false ∧
    failsWithNoMessage (Svn.Obj.default.branch true quietSvnEnv "a" "b" "m" (.str "HEAD")).2
      = false := by
  have h := svn_message_required Svn.Obj.default true quietSvnEnv (.str ".") false
    "a.txt" "a" "b" (.str "HEAD") "m"
  have h2 := h.2.2.2.2 (by decide)
  exact ⟨h.1, h.2.1, h.2.2.1, h.2.2.2.1, h2.1, h2.2.1, h2.2.2.1, h2.2.2.2⟩

/-- C9 counterexample: with the `HEAD` metadata file missing, the call
fails with the builtin IO error of `open` (which sits outside the `try`
block), not with the metadata-parse error the claim requires. -/
theorem git_missing_head_counterexample :
    Git.Obj.default.get_current_branch gitMissingEnv "repo"
      = .error (.ioError "repo\\.git\\HEAD") ∧
    failsWithGitParseMetaData (Git.Obj.default.get_current_branch gitMissingEnv "repo")
      = false :=
  ⟨rfl, rfl⟩

/-- C9 (amended): `get_current_branch` reads the `HEAD` metadata file
directly, takes the piece after `': '` as the symbolic ref, and reads
the referenced ref file for the revision, returning the pair
(branch name, revision); a malformed `HEAD` line (no `': '` separator)
raises the metadata-parse error, while a missing `HEAD` or ref file
raises the builtin IO error of `open` instead. -/
theorem git_get_current_branch_spec (g : Git.Obj) (env : Git.Env) (path : String) :
    (env.readFile (Git.winPathJoin (Git.winPathJoin path g.meta_data_base_dir) "HEAD")
        = none →
      g.get_current_branch env path
        = .error (.ioError
            (Git.winPathJoin (Git.winPathJoin path g.meta_data_base_dir) "HEAD"))) ∧
    (∀ content,
      env.readFile (Git.winPathJoin (Git.winPathJoin path g.meta_data_base_dir) "HEAD")
        = some content →
      (Git.splitColonSpace (Git.readlineRstrip content).data).get? 1 = none →
      g.get_current_branch env path
        = .error (.gitParseMetaData ("cannot parse branch name from head file "
            ++ Git.winPathJoin (Git.winPathJoin path g.meta_data_base_dir) "HEAD"))) ∧
    (∀ content refs_heads_chars,
      env.readFile (Git.winPathJoin (Git.winPathJoin path g.meta_data_base_dir) "HEAD")
        = some content →
      (Git.splitColonSpace (Git.readlineRstrip content).data).get? 1
        = some refs_heads_chars →
      (env.readFile (env.normpath (Git.winPathJoin
          (Git.winPathJoin path g.meta_data_base_dir) ⟨refs_heads_chars⟩)) = none →
        g.get_current_branch env path
          = .error (.ioError (env.normpath (Git.winPathJoin
              (Git.winPathJoin path g.meta_data_base_dir) ⟨refs_heads_chars⟩)))) ∧
      (∀ content2,
        env.readFile (env.normpath (Git.winPathJoin
            (Git.winPathJoin path g.meta_data_base_dir) ⟨refs_heads_chars⟩))
          = some content2 →
        g.get_current_branch env path
          = .ok (⟨refs_heads_chars.drop "refs/heads/".data.length⟩,
                 Git.readlineRstrip content2))) := by
  refine ⟨fun h1 => ?_, fun content h1 h2 => ?_, fun content refs h1 h2 => ⟨fun h3 => ?_, fun content2 h3 => ?_⟩⟩
  · simp only [Git.Obj.get_current_branch, h1]
  · simp only [Git.Obj.get_current_branch, h1, h2]
  · simp only [Git.Obj.get_current_branch, h1, h2, h3]
  · simp only [Git.Obj.get_current_branch, h1, h2, h3]

/-- Witness for `git_get_current_branch_spec`: a repository on branch
`master` at revision `abc123` is read back as that pair. -/
theorem git_get_current_branch_spec_witness :
    Git.Obj.default.get_current_branch gitRepoEnv "repo" = .ok ("master", "abc123") := by
  have h := (git_get_current_branch_spec Git.Obj.default gitRepoEnv "repo").2.2
    "ref: refs/heads/master\n" "refs/heads/master".data rfl rfl
  have h2 := h.2 "abc123\n" rfl
  rw [h2]
  rfl

namespace Zip

/-- Join of a single component. -/
theorem joinWith_single (sep : Char) (p : List Char) : joinWith sep [p] = p := rfl

/-- Join of at least two components. -/
theorem joinWith_cons₂ (sep : Char) (p q : List Char) (ps : List (List Char)) :
    joinWith sep (p :: q :: ps) = p ++ sep :: joinWith sep (q :: ps) := rfl

/-- A join of components headed by a non-empty component is non-empty. -/
theorem joinWith_ne_nil (sep : Char) (p : List Char) (ps : List (List Char)) (h : p ≠ []) :
    joinWith sep (p :: ps) ≠ [] := by
  cases ps with
  | nil => rw [joinWith_single]; exact h
  | cons q ps' =>
    rw [joinWith_cons₂]
    cases p with
    | nil => exact absurd rfl h
    | cons c p' => simp

/-- `splitSlash` never returns the empty list of groups. -/
theorem splitSlash_ne_nil (s : List Char) : splitSlash s ≠ [] := by
  induction s with
  | nil => simp [splitSlash]
  | cons c rest ih =>
    simp only [splitSlash]
    split
    · simp
    · split
      · simp
      · simp

/-- Splitting after a slash-free block: the block joins the first
group. -/
theorem splitSlash_append (p rest : List Char) (hp : '/' ∉ p) :
    splitSlash (p ++ rest) = (p ++ (splitSlash rest).headD []) :: (splitSlash rest).tail := by
  induction p with
  | nil =>
    simp only [List.nil_append]
    cases h : splitSlash rest with
    | nil => exact absurd h (splitSlash_ne_nil rest)
    | cons g gs => simp
  | cons c p' ih =>
    have hc : c ≠ '/' := fun hh => hp (by simp [hh])
    have hp' : '/' ∉ p' := fun hh => hp (List.mem_cons_of_mem c hh)
    simp only [List.cons_append, splitSlash]
    rw [if_neg hc]
    simp only [List.append_eq]
    rw [ih hp']

/-- Splitting undoes joining for slash-free components. -/
theorem splitSlash_joinWith (ps : List (List Char)) (hne : ps ≠ [])
    (h : ∀ p ∈ ps, '/' ∉ p) :
    splitSlash (joinWith '/' ps) = ps := by
  induction ps with
  | nil => exact absurd rfl hne
  | cons p ps' ih =>
    cases ps' with
    | nil =>
      have h0 := splitSlash_append p [] (h p (by simp))
      rw [List.append_nil] at h0
      rw [joinWith_single, h0]
      simp [splitSlash]
    | cons q ps'' =>
      have hrest : splitSlash ('/' :: joinWith '/' (q :: ps''))
          = [] :: splitSlash (joinWith '/' (q :: ps'')) := by
        simp [splitSlash]
      rw [joinWith_cons₂, splitSlash_append p _ (h p (by simp)), hrest,
        ih (by simp) (fun r hr => h r (List.mem_cons_of_mem p hr))]
      simp

/-- Backslash replacement is the identity on backslash-free text. -/
theorem replaceBsSlash_of_no_bs (s : List Char) (h : bsChar ∉ s) : replaceBsSlash s = s := by
  induction s with
  | nil => rfl
  | cons c cs ih =>
    have hc : c ≠ bsChar := fun hh => h (by simp [hh])
    have hcs : bsChar ∉ cs := fun hh => h (List.mem_cons_of_mem c hh)
    have ih' := ih hcs
    unfold replaceBsSlash at ih' ⊢
    simp [hc, ih']

/-- Backslash replacement distributes over concatenation. -/
theorem replaceBsSlash_append (a b : List Char) :
    replaceBsSlash (a ++ b) = replaceBsSlash a ++ replaceBsSlash b :=
  List.map_append _ a b

/-- Backslash replacement turns a `\`-join of backslash-free components
into the `/`-join. -/
theorem replaceBsSlash_joinWith (ps : List (List Char)) (h : ∀ p ∈ ps, bsChar ∉ p) :
    replaceBsSlash (joinWith bsChar ps) = joinWith '/' ps := by
  induction ps with
  | nil => rfl
  | cons p ps' ih =>
    cases ps' with
    | nil =>
      rw [joinWith_single, joinWith_single]
      exact replaceBsSlash_of_no_bs p (h p (by simp))
    | cons q ps'' =>
      have hhead : replaceBsSlash (bsChar :: joinWith bsChar (q :: ps''))
          = '/' :: replaceBsSlash (joinWith bsChar (q :: ps'')) := by
        simp [replaceBsSlash]
      rw [joinWith_cons₂, replaceBsSlash_append, hhead,
        ih (fun r hr => h r (List.mem_cons_of_mem p hr)),
        replaceBsSlash_of_no_bs p (h p (by simp)), joinWith_cons₂]

/-- A `/`-join of backslash-free components is backslash-free. -/
theorem joinWith_slash_no_bs (ps : List (List Char)) (h : ∀ p ∈ ps, bsChar ∉ p) :
    bsChar ∉ joinWith '/' ps := by
  induction ps with
  | nil => simp [joinWith]
  | cons p ps' ih =>
    cases ps' with
    | nil =>
      rw [joinWith_single]
      exact h p (by simp)
    | cons q ps'' =>
      rw [joinWith_cons₂]
      intro hmem
      rcases List.mem_append.mp hmem with hl | hr
      · exact h p (by simp) hl
      · rcases List.mem_cons.mp hr with he | hj
        · exact absurd he (by decide)
        · exact ih (fun r hr2 => h r (List.mem_cons_of_mem p hr2)) hj

/-- Leading-separator stripping on a head that is no separator. -/
theorem stripLeadingSeps_of_head (c : Char) (s : List Char) (h1 : c ≠ bsChar) (h2 : c ≠ '/') :
    stripLeadingSeps (c :: s) = c :: s := by
  have hcond : (c = bsChar || c = '/') = false := by
    simp [h1, h2]
  simp [stripLeadingSeps, hcond]

/-- Leading-separator stripping consumes a leading backslash. -/
theorem stripLeadingSeps_cons_bs (s : List Char) :
    stripLeadingSeps (bsChar :: s) = stripLeadingSeps s := by
  simp [stripLeadingSeps]

/-- Leading-separator stripping is the identity on a `\`-join of good
components. -/
theorem stripLeadingSeps_joinWith (cs : List (List Char)) (hne : cs ≠ [])
    (h : ∀ p ∈ cs, goodComp p) :
    stripLeadingSeps (joinWith bsChar cs) = joinWith bsChar cs := by
  cases cs with
  | nil => exact absurd rfl hne
  | cons p rest =>
    obtain ⟨hpne, hps, hpb, _, _⟩ := h p (by simp)
    cases p with
    | nil => exact absurd rfl hpne
    | cons c p' =>
      have hc1 : c ≠ bsChar := fun hh => hpb (by simp [hh])
      have hc2 : c ≠ '/' := fun hh => hps (by simp [hh])
      cases rest with
      | nil =>
        rw [joinWith_single]
        exact stripLeadingSeps_of_head c p' hc1 hc2
      | cons q rest' =>
        rw [joinWith_cons₂, List.cons_append]
        exact stripLeadingSeps_of_head c _ hc1 hc2

/-- The `getLast?` of a list absorbs an `Option.or` when non-empty. -/
theorem getLast?_or_self (l : List Char) (h : l ≠ []) (o : Option Char) :
    l.getLast?.or o = l.getLast? := by
  cases hl : l.getLast? with
  | none => exact absurd (List.getLast?_eq_none_iff.mp hl) h
  | some x => rfl

/-- The stored name of a file member never ends in `/` for good
components. -/
theorem getLast?_joinWith_ne_slash (ps : List (List Char)) (hne : ps ≠ [])
    (h : ∀ p ∈ ps, goodComp p) :
    (joinWith '/' ps).getLast? ≠ some '/' := by
  induction ps with
  | nil => exact absurd rfl hne
  | cons p ps' ih =>
    cases ps' with
    | nil =>
      rw [joinWith_single]
      intro hc
      exact (h p (by simp)).2.1 (List.mem_of_getLast?_eq_some hc)
    | cons q ps'' =>
      have hqne : joinWith '/' (q :: ps'') ≠ [] :=
        joinWith_ne_nil '/' q ps'' (h q (by simp)).1
      rw [joinWith_cons₂, List.getLast?_append]
      have h1 : ('/' :: joinWith '/' (q :: ps'')).getLast?
          = (joinWith '/' (q :: ps'')).getLast? := by
        cases hj : joinWith '/' (q :: ps'') with
        | nil => exact absurd hj hqne
        | cons x xs => rw [List.getLast?_cons_cons]
      rw [h1, getLast?_or_self _ hqne]
      exact ih (by simp) (fun r hr => h r (List.mem_cons_of_mem p hr))

/-- Adapters from `goodPath` to the component facts used by the
joining lemmas. -/
theorem goodPath_no_slash (cs : List (List Char)) (hg : goodPath cs) :
    ∀ p ∈ cs, '/' ∉ p :=
  fun p hp => (hg.2 p hp).2.1

/-- Components of a good path are backslash-free. -/
theorem goodPath_no_bs (cs : List (List Char)) (hg : goodPath cs) :
    ∀ p ∈ cs, bsChar ∉ p :=
  fun p hp => (hg.2 p hp).2.2.1

/-- The stored name of a file member of the archive is the `/`-join of
its relative components. -/
theorem zip_file_name (dirPath : List Char) (cs : List (List Char)) (hg : goodPath cs) :
    zipStoredName (archiveName dirPath (osJoinAll dirPath cs)) false = joinWith '/' cs := by
  unfold zipStoredName archiveName osJoinAll
  rw [List.drop_left, stripLeadingSeps_cons_bs,
    stripLeadingSeps_joinWith cs hg.1 hg.2,
    replaceBsSlash_joinWith cs (goodPath_no_bs cs hg)]
  simp

/-- The stored name of a directory member of the archive is the
`/`-join of its relative components followed by `/`. -/
theorem zip_dir_name (dirPath : List Char) (cs : List (List Char)) (hg : goodPath cs) :
    zipStoredName (archiveName dirPath (osJoinAll dirPath cs)) true
      = joinWith '/' cs ++ ['/'] := by
  unfold zipStoredName archiveName osJoinAll
  rw [List.drop_left, stripLeadingSeps_cons_bs,
    stripLeadingSeps_joinWith cs hg.1 hg.2,
    replaceBsSlash_joinWith cs (goodPath_no_bs cs hg)]
  simp

/-- Extracting a directory member creates no file. -/
theorem unzip_step_dir (fs : ExtractedFs) (cs : List (List Char)) (hg : goodPath cs)
    (c : List Nat) :
    unzip_step fs (joinWith '/' cs ++ ['/'], c) = fs := by
  unfold unzip_step
  have hbs : bsChar ∉ (joinWith '/' cs ++ ['/']) := by
    intro hmem
    rcases List.mem_append.mp hmem with hl | hr
    · exact joinWith_slash_no_bs cs (goodPath_no_bs cs hg) hl
    · rcases List.mem_cons.mp hr with he | hf
      · exact absurd he (by decide)
      · simp at hf
  rw [replaceBsSlash_of_no_bs _ hbs]
  simp [List.getLast?_concat]

/-- Extracting a file member writes its content at its component
path. -/
theorem unzip_step_file (fs : ExtractedFs) (cs : List (List Char)) (hg : goodPath cs)
    (c : List Nat) :
    unzip_step fs (joinWith '/' cs, c) = (cs, c) :: fs := by
  unfold unzip_step
  rw [replaceBsSlash_of_no_bs _ (joinWith_slash_no_bs cs (goodPath_no_bs cs hg))]
  rw [if_neg (getLast?_joinWith_ne_slash cs hg.1 hg.2)]
  rw [splitSlash_joinWith cs hg.1 (goodPath_no_slash cs hg)]

/-- The extraction loop over a zipped walk produces exactly the file
entries, most recent first. -/
theorem unzip_zip_dir_foldl (dirPath : List Char) (items : List WalkItem)
    (hwf : ∀ it ∈ items, goodItem it) :
    ∀ acc, (_zip_dir dirPath items).foldl unzip_step acc
      = (fileEntries items).reverse ++ acc := by
  induction items with
  | nil => intro acc; simp [_zip_dir, fileEntries]
  | cons it items' ih =>
    intro acc
    have hit := hwf it (by simp)
    have hwf' : ∀ x ∈ items', goodItem x := fun x hx => hwf x (List.mem_cons_of_mem it hx)
    cases it with
    | dirItem cs =>
      simp only [_zip_dir, List.map_cons, List.foldl_cons]
      rw [zip_dir_name dirPath cs hit, unzip_step_dir acc cs hit []]
      have := ih hwf' acc
      simp only [_zip_dir] at this
      rw [this]
      simp [fileEntries, List.filterMap_cons]
    | fileItem cs c =>
      simp only [_zip_dir, List.map_cons, List.foldl_cons]
      rw [zip_file_name dirPath cs hit, unzip_step_file acc cs hit c]
      have := ih hwf' ((cs, c) :: acc)
      simp only [_zip_dir] at this
      rw [this]
      simp [fileEntries, List.filterMap_cons]

/-- Looking up a path in a file list whose paths are distinct returns
the stored content. -/
theorem fsRead_of_mem_nodup (l : ExtractedFs) (p : List (List Char)) (c : List Nat)
    (hmem : (p, c) ∈ l) (hnd : (l.map Prod.fst).Nodup) :
    fsRead l p = some c := by
  induction l with
  | nil => simp at hmem
  | cons e l' ih =>
    obtain ⟨q, d⟩ := e
    rw [List.map_cons] at hnd
    rcases List.mem_cons.mp hmem with heq | hmem'
    · have hq : q = p := congrArg Prod.fst heq.symm
      have hd : d = c := congrArg Prod.snd heq.symm
      subst hq
      subst hd
      simp [fsRead]
    · have hq : (q == p) = false := by
        rw [beq_eq_false_iff_ne]
        intro hqp
        subst hqp
        exact (List.nodup_cons.mp hnd).1 (List.mem_map.mpr ⟨(q, c), hmem', rfl⟩)
      have ih' := ih hmem' (List.nodup_cons.mp hnd).2
      unfold fsRead at ih' ⊢
      rw [List.find?_cons_of_neg _ (by simp [hq])]
      exact ih'

/-- The paths of the file entries are the file paths of the walk. -/
theorem fileEntries_map_fst (items : List WalkItem) :
    (fileEntries items).map Prod.fst = filePaths items := by
  induction items with
  | nil => rfl
  | cons it items' ih =>
    cases it <;> simp [fileEntries, filePaths, List.filterMap_cons] at * <;> exact ih

/-- Every file of the walk appears among the file entries. -/
theorem mem_fileEntries (items : List WalkItem) (cs : List (List Char)) (c : List Nat)
    (h : WalkItem.fileItem cs c ∈ items) :
    (cs, c) ∈ fileEntries items := by
  induction items with
  | nil => simp at h
  | cons it items' ih =>
    rcases List.mem_cons.mp h with heq | hmem
    · subst heq
      simp [fileEntries, List.filterMap_cons]
    · cases it with
      | dirItem cs' =>
        simp only [fileEntries, List.filterMap_cons]
        exact ih hmem
      | fileItem cs' c' =>
        simp only [fileEntries, List.filterMap_cons]
        exact List.mem_cons_of_mem _ (ih hmem)

end Zip

/-- C2: zipping a directory tree with `Zip.zip` and extracting the
produced archive with `Zip.unzip` reproduces every file of the tree at
its original relative component path with identical byte contents.  The
tree is any `os.walk` enumeration whose components are well-formed
(non-empty, free of separators and of the special names `.`/`..`) and
whose file paths are distinct. -/
theorem zip_unzip_roundtrip (dirPath : List Char) (items : List Zip.WalkItem)
    (hwf : ∀ it ∈ items, Zip.goodItem it)
    (hnd : (Zip.filePaths items).Nodup)
    (cs : List (List Char)) (c : List Nat)
    (hmem : Zip.WalkItem.fileItem cs c ∈ items) :
    Zip.fsRead (Zip.unzip (Zip.zip (.dir dirPath items))) cs = some c := by
  have h1 : Zip.unzip (Zip.zip (.dir dirPath items)) = (Zip.fileEntries items).reverse := by
    show (Zip._zip_dir dirPath items).foldl Zip.unzip_step [] = (Zip.fileEntries items).reverse
    rw [Zip.unzip_zip_dir_foldl dirPath items hwf []]
    simp
  rw [h1]
  apply Zip.fsRead_of_mem_nodup
  · exact List.mem_reverse.mpr (Zip.mem_fileEntries items cs c hmem)
  · rw [List.map_reverse, Zip.fileEntries_map_fst]
    exact List.nodup_reverse.mpr hnd

/-- Witness for `zip_unzip_roundtrip`: a concrete two-file tree with a
subdirectory round-trips both files. -/
theorem zip_unzip_roundtrip_witness :
    Zip.fsRead
      (Zip.unzip (Zip.zip (.dir ['d']
        [Zip.WalkItem.dirItem [['s', 'u', 'b']],
         Zip.WalkItem.fileItem [['s', 'u', 'b'], ['a', '.', 't', 'x', 't']] [104, 105],
         Zip.WalkItem.fileItem [['b', '.', 'b', 'i', 'n']] [0, 255]])))
      [['s', 'u', 'b'], ['a', '.', 't', 'x', 't']] = some [104, 105] ∧
    Zip.fsRead
      (Zip.unzip (Zip.zip (.dir ['d']
        [Zip.WalkItem.dirItem [['s', 'u', 'b']],
         Zip.WalkItem.fileItem [['s', 'u', 'b'], ['a', '.', 't', 'x', 't']] [104, 105],
         Zip.WalkItem.fileItem [['b', '.', 'b', 'i', 'n']] [0, 255]])))
      [['b', '.', 'b', 'i', 'n']] = some [0, 255] := by
  constructor
  · exact zip_unzip_roundtrip ['d']
      [Zip.WalkItem.dirItem [['s', 'u', 'b']],
       Zip.WalkItem.fileItem [['s', 'u', 'b'], ['a', '.', 't', 'x', 't']] [104, 105],
       Zip.WalkItem.fileItem [['b', '.', 'b', 'i', 'n']] [0, 255]]
      (by decide) (by decide) [['s', 'u', 'b'], ['a', '.', 't', 'x', 't']] [104, 105]
      (by decide)
  · exact zip_unzip_roundtrip ['d']
      [Zip.WalkItem.dirItem [['s', 'u', 'b']],
       Zip.WalkItem.fileItem [['s', 'u', 'b'], ['a', '.', 't', 'x', 't']] [104, 105],
       Zip.WalkItem.fileItem [['b', '.', 'b', 'i', 'n']] [0, 255]]
      (by decide) (by decide) [['b', '.', 'b', 'i', 'n']] [0, 255]
      (by decide)
